import Mathlib

/-!
Verification development for the tool-orchestration and agentic-loop engine of
the `claire-webtool` browser extension.  All definitions are shallow embeddings
of `src/src/api/lmStudioApi.ts` (class `LMStudioAPI`); line numbers in the doc
comments refer to that file.  The language-model backend (an HTTP call in the
source) is modelled as an oracle function, and `JSON.parse` on structured tag
spans (a platform builtin, not repository code) is modelled as an oracle
parameter `parseTag`.
-/

namespace Claire

/-! ### Character and string helpers

The source manipulates JavaScript strings; we work over `List Char` and
convert at the boundaries.  JavaScript specifics modelled here: `\s` (the
whitespace class, restricted to its ASCII members, which are the only ones the
repository's texts use), `.` without the `s` flag (any char except line
terminators), ASCII lower-casing (`toLowerCase` restricted to ASCII, which
covers every registered tool name and completion phrase in the repository).
-/

/-- JavaScript whitespace class `\s`, ASCII members. -/
def jsWhite (c : Char) : Bool :=
  c = ' ' || c = '\t' || c = '\n' || c = '\r' || c = '\x0b' || c = '\x0c'

/-- JavaScript `.` without the `s` flag: any char except a line terminator. -/
def jsDot (c : Char) : Bool :=
  !(c = '\n' || c = '\r' || c = Char.ofNat 0x2028 || c = Char.ofNat 0x2029)

/-- ASCII lower-casing of one character (JavaScript `toLowerCase`, ASCII range). -/
def toLowerAscii (c : Char) : Char :=
  if 'A' ≤ c && c ≤ 'Z' then Char.ofNat (c.toNat + 32) else c

/-- Lower-case a string (ASCII range). -/
def lowerList (s : List Char) : List Char := s.map toLowerAscii

/-- `pat` is a literal (case-sensitive) prefix of `s`. -/
def litStarts : List Char → List Char → Bool
  | [], _ => true
  | _ :: _, [] => false
  | p :: ps, c :: cs => (p = c) && litStarts ps cs

/-- `pat` is a case-insensitive (ASCII) prefix of `s`. -/
def ciStarts : List Char → List Char → Bool
  | [], _ => true
  | _ :: _, [] => false
  | p :: ps, c :: cs => (toLowerAscii p = toLowerAscii c) && ciStarts ps cs

/-- Index of the first occurrence of the literal `pat` in `s`. -/
def findSub (pat : List Char) : List Char → Option Nat
  | [] => if pat.isEmpty then some 0 else none
  | c :: t =>
    if litStarts pat (c :: t) then some 0
    else (findSub pat t).map (· + 1)

/-- `needle` occurs as a contiguous sublist of `hay`. -/
def containsSub (needle : List Char) : List Char → Bool
  | [] => needle.isEmpty
  | c :: t => litStarts needle (c :: t) || containsSub needle t

/-- JavaScript `String.prototype.includes` (substring test). -/
def strIncludes (hay needle : String) : Bool := containsSub needle.data hay.data

/-- JavaScript `String.prototype.trim` (whitespace stripped from both ends). -/
def jsTrim (cs : List Char) : List Char :=
  ((cs.dropWhile jsWhite).reverse.dropWhile jsWhite).reverse

/-- Join a list of strings with a separator (JavaScript `Array.prototype.join`). -/
def joinSep (sep : String) : List String → String
  | [] => ""
  | [s] => s
  | s :: t => s ++ sep ++ joinSep sep t

/-! ### Agentic loop (lines 521–608)

`executeAgenticTask` (lines 521–567) runs a `while` loop: one backend
completion call per turn, a completion-phrase check (`isTaskComplete`,
lines 596–608), context accumulation, and a turn budget.  The backend
completion call — `this.chatCompletion([{system, agentic prompt},
{user, context}])` — is modelled as an oracle `backend : String → String`
from the accumulated context (the only varying input; the agentic system
prompt is a constant absorbed into the oracle).

The loop is embedded with the remaining turn budget
(`maxTurns - currentTurn`) as structural fuel; since `currentTurn` starts at
`0` and increases by exactly `1` per iteration, the fuel value is faithful.
`maxTurns` is a JavaScript number; nonpositive values make the `while`
condition initially false, which `Int.toNat` reproduces.
-/

/-- Completion phrases of `isTaskComplete` (lines 597–603). -/
def completionIndicators : List String :=
  ["task complete:", "analysis complete", "here is your final answer",
   "task finished", "completed successfully"]

/-- `isTaskComplete` (lines 596–608): some indicator occurs (case-insensitively)
in the response. -/
def isTaskComplete (response : String) : Bool :=
  completionIndicators.any fun indicator =>
    containsSub indicator.data (lowerList response.data)

/-- Result of one agentic run: final text, number of backend completion calls
made, and whether the run exited through the completion-phrase `break`. -/
structure AgenticRun where
  result : String
  calls : Nat
  completed : Bool
deriving DecidableEq

/-- The spec's §4.6 state machine states, derived from a finished run:
`Completed` exactly when the loop exited through the completion-phrase
`break`, otherwise `BudgetExhausted`. -/
inductive AgenticOutcome where
  | Completed
  | BudgetExhausted
deriving DecidableEq

/-- Terminal state of a finished agentic run. -/
def runOutcome (r : AgenticRun) : AgenticOutcome :=
  if r.completed then .Completed else .BudgetExhausted

/-- The `while` loop of `executeAgenticTask` (lines 537–563), with
`fuel = maxTurns - currentTurn`.  `("", 0, false)` at fuel `0` is the loop
never being entered (with `finalResponse` still the initial `""`). -/
def agenticLoop (backend : String → String) : Nat → String → AgenticRun
  | 0, _ => ⟨"", 0, false⟩
  | fuel + 1, context =>
    let response := backend context
    if isTaskComplete response then ⟨response, 1, true⟩
    else if fuel = 0 then ⟨response, 1, false⟩
    else
      let r := agenticLoop backend fuel (context ++ "\n\nPrevious response: " ++ response)
      ⟨r.result, r.calls + 1, r.completed⟩

/-- `executeAgenticTask` (lines 521–567).  `maxTurns` is an integer as in the
source; the loop runs `max maxTurns 0` iterations at most. -/
def executeAgenticTask (backend : String → String) (userInput : String)
    (maxTurns : Int) : AgenticRun :=
  agenticLoop backend maxTurns.toNat userInput

/-- Context accumulated at the start of turn `i + 1` (turn indices here are
0-based): `agenticContext backend ctx 0 = ctx`, and each step appends
`"\n\nPrevious response: "` and the backend's reply (line 556). -/
def agenticContext (backend : String → String) (ctx : String) : Nat → String
  | 0 => ctx
  | i + 1 =>
    agenticContext backend (ctx ++ "\n\nPrevious response: " ++ backend ctx) i

/-- Text produced by the backend on 0-based turn `i`. -/
def turnText (backend : String → String) (ctx : String) (i : Nat) : String :=
  backend (agenticContext backend ctx i)

theorem agenticContext_succ (backend : String → String) (ctx : String) (i : Nat) :
    agenticContext backend ctx (i + 1) =
      agenticContext backend (ctx ++ "\n\nPrevious response: " ++ backend ctx) i := rfl

/-- Helper: when no produced turn text is complete, the loop burns its whole
fuel, makes one call per unit of fuel, and returns the last turn's text. -/
theorem agenticLoop_exhaust (backend : String → String) :
    ∀ (fuel : Nat) (ctx : String), 1 ≤ fuel →
    (∀ j, j < fuel → isTaskComplete (turnText backend ctx j) = false) →
    agenticLoop backend fuel ctx = ⟨turnText backend ctx (fuel - 1), fuel, false⟩ := by
  intro fuel
  induction fuel with
  | zero => intro ctx h; omega
  | succ f ih =>
    intro ctx _ hnone
    have h0 : isTaskComplete (backend ctx) = false := hnone 0 (Nat.succ_pos f)
    match f, ih with
    | 0, _ =>
      simp [agenticLoop, turnText, agenticContext, h0]
    | f' + 1, ih =>
      have hrec := ih (ctx ++ "\n\nPrevious response: " ++ backend ctx)
        (Nat.succ_le_succ (Nat.zero_le f'))
        (fun j hj => by
          have := hnone (j + 1) (by omega)
          simpa [turnText, agenticContext_succ] using this)
      simp only [agenticLoop, turnText, agenticContext] at *
      simp [h0, hrec]

/-- Helper: if 0-based turn `k` is the first whose text is complete and the
budget allows reaching it, the loop stops there with `k + 1` calls. -/
theorem agenticLoop_completes (backend : String → String) :
    ∀ (k : Nat) (fuel : Nat) (ctx : String), k < fuel →
    (∀ j, j < k → isTaskComplete (turnText backend ctx j) = false) →
    isTaskComplete (turnText backend ctx k) = true →
    agenticLoop backend fuel ctx = ⟨turnText backend ctx k, k + 1, true⟩ := by
  intro k
  induction k with
  | zero =>
    intro fuel ctx hk _ hdone
    match fuel, hk with
    | f + 1, _ =>
      simp only [turnText, agenticContext] at hdone
      simp [agenticLoop, hdone, turnText, agenticContext]
  | succ k' ih =>
    intro fuel ctx hk hnone hdone
    match fuel, hk with
    | f + 1, hk =>
      have h0 : isTaskComplete (backend ctx) = false := hnone 0 (Nat.succ_pos k')
      have hf : f ≠ 0 := by omega
      have hrec := ih f (ctx ++ "\n\nPrevious response: " ++ backend ctx)
        (by omega)
        (fun j hj => by
          have := hnone (j + 1) (by omega)
          simpa [turnText, agenticContext_succ] using this)
        (by simpa [turnText, agenticContext_succ] using hdone)
      simp only [agenticLoop, turnText, agenticContext] at *
      simp [h0, hf, hrec]

/-- C4: for every `maxTurns = n ≥ 1`, if no turn's completion text contains a
completion phrase, `executeAgenticTask` performs exactly `n` backend completion
calls, terminates in state `BudgetExhausted`, and returns the `n`-th turn's
completion text (a best-effort answer, not an error). -/
theorem executeAgenticTask_budget_exhausted (backend : String → String)
    (input : String) (n : Nat) (h1 : 1 ≤ n)
    (hnone : ∀ j, j < n → isTaskComplete (turnText backend input j) = false) :
    executeAgenticTask backend input (n : Int) =
      ⟨turnText backend input (n - 1), n, false⟩ ∧
    runOutcome (executeAgenticTask backend input (n : Int)) = .BudgetExhausted := by
  have hrun : executeAgenticTask backend input (n : Int) =
      ⟨turnText backend input (n - 1), n, false⟩ := by
    have ht : ((n : Int)).toNat = n := rfl
    unfold executeAgenticTask
    rw [ht]
    exact agenticLoop_exhaust backend n input h1 hnone
  exact ⟨hrun, by rw [hrun]; rfl⟩

/-- Witness for C4 at a concrete backend that never emits a completion phrase
and `maxTurns = 3`. -/
theorem executeAgenticTask_budget_exhausted_witness :
    ((1 : Nat) ≤ 3 ∧
      ∀ j, j < 3 →
        isTaskComplete (turnText (fun _ => "still working") "plan a trip" j) = false) ∧
    executeAgenticTask (fun _ => "still working") "plan a trip" (3 : Int) =
      ⟨turnText (fun _ => "still working") "plan a trip" 2, 3, false⟩ := by
  refine ⟨⟨by decide, by decide⟩, ?_⟩
  exact (executeAgenticTask_budget_exhausted (fun _ => "still working")
    "plan a trip" 3 (by decide) (by decide)).1

/-- C5: if the `i`-th turn's completion text is the first to contain one of the
five completion phrases (case-insensitive substring), `executeAgenticTask`
terminates in state `Completed` after exactly `i` backend completion calls and
returns that `i`-th completion text.  (`i ≤ maxTurns` is presupposed: an `i`-th
turn only occurs within the budget; turns here are the 1-based `i`, so the
0-based index is `i - 1`.) -/
theorem executeAgenticTask_completed (backend : String → String)
    (input : String) (i n : Nat) (h1 : 1 ≤ i) (h2 : i ≤ n)
    (hfirst : ∀ j, j + 1 < i → isTaskComplete (turnText backend input j) = false)
    (hdone : isTaskComplete (turnText backend input (i - 1)) = true) :
    executeAgenticTask backend input (n : Int) =
      ⟨turnText backend input (i - 1), i, true⟩ ∧
    runOutcome (executeAgenticTask backend input (n : Int)) = .Completed := by
  have hrun : executeAgenticTask backend input (n : Int) =
      ⟨turnText backend input (i - 1), i, true⟩ := by
    have ht : ((n : Int)).toNat = n := rfl
    unfold executeAgenticTask
    rw [ht]
    have := agenticLoop_completes backend (i - 1) n input (by omega)
      (fun j hj => hfirst j (by omega)) hdone
    rw [this]
    have : i - 1 + 1 = i := by omega
    rw [this]
  exact ⟨hrun, by rw [hrun]; rfl⟩

/-- Witness for C5: the backend emits `"Task Complete: done"` (mixed case) on
turn 2, so the run completes after exactly 2 calls inside a budget of 3. -/
theorem executeAgenticTask_completed_witness :
    ((∀ j, j < 1 →
        isTaskComplete (turnText
          (fun s => if strIncludes s "Previous response" then "Task Complete: done"
                    else "thinking") "go" j) = false) ∧
      isTaskComplete (turnText
        (fun s => if strIncludes s "Previous response" then "Task Complete: done"
                  else "thinking") "go" 1) = true) ∧
    executeAgenticTask
      (fun s => if strIncludes s "Previous response" then "Task Complete: done"
                else "thinking") "go" (3 : Int) =
      ⟨turnText (fun s => if strIncludes s "Previous response" then "Task Complete: done"
                          else "thinking") "go" 1, 2, true⟩ := by
  refine ⟨⟨by decide, by decide⟩, ?_⟩
  exact (executeAgenticTask_completed
    (fun s => if strIncludes s "Previous response" then "Task Complete: done"
              else "thinking") "go" 2 3 (by decide) (by decide)
    (fun j hj => by
      have h : ∀ j, j < 1 → isTaskComplete (turnText
        (fun s => if strIncludes s "Previous response" then "Task Complete: done"
                  else "thinking") "go" j) = false := by decide
      exact h j (by omega)) (by decide)).1

/-- C9: with `maxTurns ≤ 0` the loop body of `executeAgenticTask` is never
entered — no backend completion call is made and the empty string is returned,
regardless of backend behavior. -/
theorem executeAgenticTask_nonpositive (backend : String → String)
    (input : String) (m : Int) (h : m ≤ 0) :
    executeAgenticTask backend input m = ⟨"", 0, false⟩ := by
  have ht : m.toNat = 0 := Int.toNat_of_nonpos h
  unfold executeAgenticTask
  rw [ht]
  rfl

/-- Witness for C9 at `maxTurns = -2`, with a backend that would immediately
complete if it were ever consulted. -/
theorem executeAgenticTask_nonpositive_witness :
    ((-2 : Int) ≤ 0) ∧
    executeAgenticTask (fun _ => "Task complete: never asked") "go" (-2) =
      ⟨"", 0, false⟩ :=
  ⟨by decide, executeAgenticTask_nonpositive
    (fun _ => "Task complete: never asked") "go" (-2) (by decide)⟩

/-! ### Tool registry and tool invocation (lines 45–61, 238–271, 832–841)

The registry is a JavaScript `Map<string, Tool>`; iteration follows insertion
order, so it is modelled as a `List Tool` with first-match lookup.  A tool's
`handler` is an async function returning an arbitrary value that
`processToolCall` serializes with `JSON.stringify`, or throwing; it is
modelled as `List (String × String) → Except String String` where `Except.ok`
carries the already-serialized result text and `Except.error` carries the
rendered thrown error (the interpolation `${error}` at line 269).  Parameter
maps are modelled as association lists of strings. -/

/-- One declared tool parameter (lines 53–58). -/
structure ToolParam where
  name : String
  type : String
  description : String
  required : Bool
deriving DecidableEq

/-- A registered tool (lines 50–61).  `handler` is the capability, composed
with the `JSON.stringify` of line 265 on success. -/
structure Tool where
  name : String
  description : String
  parameters : List ToolParam
  handler : List (String × String) → Except String String
  category : Option String := none

/-- A detected tool invocation (lines 45–48). -/
structure ToolCall where
  name : String
  parameters : List (String × String)
deriving DecidableEq

/-- `this.tools.get(name)` on the insertion-ordered registry. -/
def toolsGet (tools : List Tool) (name : String) : Option Tool :=
  tools.find? fun t => t.name = name

/-- `Array.from(this.tools.keys())`: registered names in registration order. -/
def toolsKeys (tools : List Tool) : List String :=
  tools.map fun t => t.name

/-- `processToolCall` (lines 253–271): unknown names yield the
`Unknown tool` error block listing every registered name; a throwing handler
yields an error block keyed by the tool name; a succeeding handler yields a
success block keyed by the tool name.  Always returns, never raises. -/
def processToolCall (tools : List Tool) (call : ToolCall) : String :=
  match toolsGet tools call.name with
  | none =>
    "[TOOL_ERROR]Unknown tool: " ++ call.name ++ ". Available tools: " ++
      joinSep ", " (toolsKeys tools) ++ "[/TOOL_ERROR]"
  | some tool =>
    match tool.handler call.parameters with
    | .ok result => "[TOOL_RESULT:" ++ call.name ++ "]" ++ result ++ "[/TOOL_RESULT]"
    | .error e => "[TOOL_ERROR:" ++ call.name ++ "]" ++ e ++ "[/TOOL_ERROR]"

/-- `processToolChain` (lines 832–841): sequential loop pushing one result per
call. -/
def processToolChain (tools : List Tool) : List ToolCall → List String
  | [] => []
  | call :: rest => processToolCall tools call :: processToolChain tools rest

/-- C6: `processToolChain` over `N` calls returns exactly `N` result strings
in call order, result `i` corresponding to call `i`; a call whose capability
throws yields an error-tagged block in its position, a succeeding call a
success-tagged block, and one call's failure never aborts, drops, or reorders
the rest. -/
theorem processToolChain_ordered (tools : List Tool) (calls : List ToolCall) :
    (processToolChain tools calls).length = calls.length ∧
    (∀ i : Nat, (processToolChain tools calls)[i]? =
      (calls[i]?).map (processToolCall tools)) ∧
    (∀ i : Nat, ∀ call : ToolCall, ∀ t : Tool, ∀ e : String,
      calls[i]? = some call → toolsGet tools call.name = some t →
      t.handler call.parameters = .error e →
      (processToolChain tools calls)[i]? =
        some ("[TOOL_ERROR:" ++ call.name ++ "]" ++ e ++ "[/TOOL_ERROR]")) ∧
    (∀ i : Nat, ∀ call : ToolCall, ∀ t : Tool, ∀ r : String,
      calls[i]? = some call → toolsGet tools call.name = some t →
      t.handler call.parameters = .ok r →
      (processToolChain tools calls)[i]? =
        some ("[TOOL_RESULT:" ++ call.name ++ "]" ++ r ++ "[/TOOL_RESULT]")) := by
  have hlen : (processToolChain tools calls).length = calls.length := by
    induction calls with
    | nil => rfl
    | cons c rest ih => simpa [processToolChain] using ih
  have hget : ∀ i : Nat, (processToolChain tools calls)[i]? =
      (calls[i]?).map (processToolCall tools) := by
    clear hlen
    intro i
    induction calls generalizing i with
    | nil => simp [processToolChain]
    | cons c rest ih =>
      cases i with
      | zero => simp [processToolChain]
      | succ i' => simpa [processToolChain] using ih i'
  refine ⟨hlen, hget, ?_, ?_⟩
  · intro i call t e hcall hfind hthrow
    rw [hget i, hcall]
    simp [processToolCall, hfind, hthrow]
  · intro i call t r hcall hfind hok
    rw [hget i, hcall]
    simp [processToolCall, hfind, hok]

/-- Witness for C6: a three-call chain whose middle call throws still returns
three blocks in original order — success, error, success. -/
theorem processToolChain_ordered_witness :
    ([ToolCall.mk "alpha" [], ToolCall.mk "boom" [], ToolCall.mk "alpha" []] :
        List ToolCall)[1]? = some (ToolCall.mk "boom" []) ∧
    processToolChain
      [⟨"alpha", "first tool", [], fun _ => .ok "1", none⟩,
       ⟨"boom", "always throws", [], fun _ => .error "Error: failed", none⟩]
      [ToolCall.mk "alpha" [], ToolCall.mk "boom" [], ToolCall.mk "alpha" []] =
      ["[TOOL_RESULT:alpha]1[/TOOL_RESULT]",
       "[TOOL_ERROR:boom]Error: failed[/TOOL_ERROR]",
       "[TOOL_RESULT:alpha]1[/TOOL_RESULT]"] ∧
    (processToolChain
      [⟨"alpha", "first tool", [], fun _ => .ok "1", none⟩,
       ⟨"boom", "always throws", [], fun _ => .error "Error: failed", none⟩]
      [ToolCall.mk "alpha" [], ToolCall.mk "boom" [], ToolCall.mk "alpha" []])[1]? =
      some ("[TOOL_ERROR:" ++ "boom" ++ "]" ++ "Error: failed" ++ "[/TOOL_ERROR]") := by
  refine ⟨rfl, rfl, ?_⟩
  exact (processToolChain_ordered
      [⟨"alpha", "first tool", [], fun _ => .ok "1", none⟩,
       ⟨"boom", "always throws", [], fun _ => .error "Error: failed", none⟩]
      [ToolCall.mk "alpha" [], ToolCall.mk "boom" [], ToolCall.mk "alpha" []]).2.2.1
    1 (ToolCall.mk "boom" [])
    ⟨"boom", "always throws", [], fun _ => .error "Error: failed", none⟩
    "Error: failed" rfl rfl rfl

/-- C7: invoking a `ToolCall` whose name is not registered returns (never
raises) the single block
`[TOOL_ERROR]Unknown tool: <name>. Available tools: <comma-list>[/TOOL_ERROR]`
where the list is every registered name, comma-separated, in registry
enumeration order. -/
theorem processToolCall_unknown (tools : List Tool) (call : ToolCall)
    (h : toolsGet tools call.name = none) :
    processToolCall tools call =
      "[TOOL_ERROR]Unknown tool: " ++ call.name ++ ". Available tools: " ++
        joinSep ", " (toolsKeys tools) ++ "[/TOOL_ERROR]" := by
  simp [processToolCall, h]

/-- Witness for C7: an unregistered name against a two-tool registry. -/
theorem processToolCall_unknown_witness :
    toolsGet [⟨"alpha", "first tool", [], fun _ => .ok "1", none⟩,
              ⟨"beta", "second tool", [], fun _ => .ok "2", none⟩]
      (ToolCall.mk "gamma" []).name = none ∧
    processToolCall
      [⟨"alpha", "first tool", [], fun _ => .ok "1", none⟩,
       ⟨"beta", "second tool", [], fun _ => .ok "2", none⟩]
      (ToolCall.mk "gamma" []) =
      "[TOOL_ERROR]Unknown tool: " ++ "gamma" ++ ". Available tools: " ++
        joinSep ", " (toolsKeys
          [⟨"alpha", "first tool", [], fun _ => .ok "1", none⟩,
           ⟨"beta", "second tool", [], fun _ => .ok "2", none⟩]) ++ "[/TOOL_ERROR]" := by
  refine ⟨rfl, ?_⟩
  exact processToolCall_unknown
    [⟨"alpha", "first tool", [], fun _ => .ok "1", none⟩,
     ⟨"beta", "second tool", [], fun _ => .ok "2", none⟩]
    (ToolCall.mk "gamma" []) rfl

/-! ### Request detection (lines 789–830)

`detectToolRequests` runs three scans over the content:

1. `/\[TOOL\](\x7b.*?\x7d)\[\/TOOL\]/gs` in an `exec` loop (lines 793–804):
   every leftmost span from an opening `[TOOL]\x7b` to the first following
   `\x7d[/TOOL]` is collected (`.` with the `s` flag matches everything, and
   the lazy interior ends at the first closer).  The captured group is handed
   to `JSON.parse`; `JSON.parse` is a platform builtin and is modelled as an
   oracle `parseTag : String → Option ToolCall` whose `some` covers a
   successful parse with truthy `name` and `parameters` fields (lines
   797–799) and whose `none` covers a parse error (dropped, line 802) or
   falsy fields.
2. Per registered tool, `new RegExp("use NAME tool with\\s+(.+?)(?=\\.|$)", "gi")`
   with a single `exec` call (lines 809–816): only the first match is taken.
3. Per registered tool, `new RegExp("\\/NAME\\s+(.+?)(?=\\.|$)", "gi")` with a
   single `exec` call (lines 819–826): only the first match is taken.

The regex fragment `\s+(.+?)(?=\.|$)` is modelled operationally: greedy
whitespace with backtracking (longest whitespace prefix first), then the lazy
one-or-more dot group extended minimally until the next character is `'.'` or
the end of input.  Tool names in the repository contain only word characters,
so splicing them into the pattern is literal-text matching. -/

/-- Lazy `(.+?)(?=\.|$)`: shortest nonempty run of non-line-terminator
characters after which the next character is `'.'` or the input ends.
Returns the captured run and the remaining input at the lookahead position. -/
def lazyCapture : List Char → Option (List Char × List Char)
  | [] => none
  | c :: rest =>
    if jsDot c then
      match rest with
      | [] => some ([c], [])
      | d :: _ =>
        if d = '.' then some ([c], rest)
        else
          match lazyCapture rest with
          | some (cap, r) => some (c :: cap, r)
          | none => none
    else none

/-- Leading-whitespace count (the maximal text `\s+` can consume). -/
def countWhite : List Char → Nat
  | [] => 0
  | c :: t => if jsWhite c then countWhite t + 1 else 0

/-- Greedy `\s+` with backtracking: try consuming `j` whitespace characters
for `j` from the maximum down to `1`, taking the first `j` for which the lazy
capture succeeds. -/
def wsTry (cs : List Char) : Nat → Option (List Char × List Char)
  | 0 => none
  | j + 1 =>
    match lazyCapture (cs.drop (j + 1)) with
    | some r => some r
    | none => wsTry cs j

/-- `\s+(.+?)(?=\.|$)` at the current position. -/
def wsThenCapture (cs : List Char) : Option (List Char × List Char) :=
  wsTry cs (countWhite cs)

/-- One `exec` of `LITERAL\s+(.+?)(?=\.|$)` (case-insensitive): leftmost
position where the literal matches case-insensitively and the tail pattern
succeeds.  Returns the raw captured group and the rest of the input after the
match.  (`pat` is nonempty in every use, so the empty-input base case is
a non-match.) -/
def execPatFull (pat : List Char) : List Char → Option (List Char × List Char)
  | [] => none
  | c :: t =>
    if ciStarts pat (c :: t) then
      match wsThenCapture ((c :: t).drop pat.length) with
      | some r => some r
      | none => execPatFull pat t
    else execPatFull pat t

/-- The natural-language pattern literal for one tool (line 809). -/
def nlPat (toolName : String) : List Char :=
  ("use " ++ toolName ++ " tool with").data

/-- The slash-command pattern literal for one tool (line 819). -/
def slashPat (toolName : String) : List Char :=
  ("/" ++ toolName).data

/-- First (and, in the source, only) natural-language match for a tool:
the trimmed captured query (lines 810–816). -/
def nlFirstMatch (toolName : String) (content : String) : Option String :=
  (execPatFull (nlPat toolName) content.data).map fun p => String.mk (jsTrim p.1)

/-- First (and, in the source, only) slash-command match for a tool:
the trimmed captured query (lines 820–826). -/
def slashFirstMatch (toolName : String) (content : String) : Option String :=
  (execPatFull (slashPat toolName) content.data).map fun p => String.mk (jsTrim p.1)

/-- Opening marker of the structured tag form, `[TOOL]` followed by `\x7b`. -/
def tagOpen : List Char := "[TOOL]\x7b".data

/-- Closing fragment of the structured tag form, `\x7d` followed by `[/TOOL]`. -/
def tagClose : List Char := "\x7d[/TOOL]".data

/-- The `exec` loop over `/\[TOOL\](\x7b.*?\x7d)\[\/TOOL\]/gs` (lines
793–804), fuelled: every iteration consumes at least the 15 marker
characters, so fuel `= length` never runs out. -/
def tagScanAux (parseTag : String → Option ToolCall) : Nat → List Char → List ToolCall
  | 0, _ => []
  | fuel + 1, s =>
    match findSub tagOpen s with
    | none => []
    | some i =>
      let rest := s.drop (i + 7)
      match findSub tagClose rest with
      | none => []
      | some k =>
        (match parseTag (String.mk ('\x7b' :: (rest.take k ++ ['\x7d']))) with
         | some tc => [tc]
         | none => []) ++ tagScanAux parseTag fuel (rest.drop (k + 8))

/-- All structured-tag candidates, in order of appearance. -/
def tagScan (parseTag : String → Option ToolCall) (content : String) : List ToolCall :=
  tagScanAux parseTag content.data.length content.data

/-- `detectToolRequests` (lines 789–830): structured-tag candidates first,
then for each registered tool name in registration order one optional
natural-language candidate followed by one optional slash candidate, each
carrying the trimmed capture as the single `query` parameter. -/
def detectToolRequests (parseTag : String → Option ToolCall)
    (toolNames : List String) (content : String) : List ToolCall :=
  toolNames.foldl
    (fun acc name =>
      let acc1 :=
        match nlFirstMatch name content with
        | some q => acc ++ [ToolCall.mk name [("query", q)]]
        | none => acc
      match slashFirstMatch name content with
      | some q => acc1 ++ [ToolCall.mk name [("query", q)]]
      | none => acc1)
    (tagScan parseTag content)

/-- The candidates one tool contributes in the source's per-tool iteration:
its first natural-language match (if any), then its first slash match (if
any). -/
def toolFormCalls (name : String) (content : String) : List ToolCall :=
  ((nlFirstMatch name content).toList.map fun q => ToolCall.mk name [("query", q)]) ++
  ((slashFirstMatch name content).toList.map fun q => ToolCall.mk name [("query", q)])

/-- Repeated `exec` (a global scan) of `LITERAL\s+(.+?)(?=\.|$)`: every
match's trimmed capture, continuing after each match, fuelled (each match
consumes at least three characters). -/
def execAllAux (pat : List Char) : Nat → List Char → List String
  | 0, _ => []
  | fuel + 1, s =>
    match execPatFull pat s with
    | none => []
    | some (cap, rest) => String.mk (jsTrim cap) :: execAllAux pat fuel rest

/-- Every natural-language match for a tool, had the scan been global. -/
def nlAllMatches (toolName : String) (content : String) : List String :=
  execAllAux (nlPat toolName) (content.data.length + 1) content.data

/-- Every slash-command match for a tool, had the scan been global. -/
def slashAllMatches (toolName : String) (content : String) : List String :=
  execAllAux (slashPat toolName) (content.data.length + 1) content.data

/-- Follows the claim's words (C1): one candidate per occurrence of each
accepted form — every structured-tag span, every natural-language match and
every slash match of every registered tool. -/
def detectAllOccurrencesSpec (parseTag : String → Option ToolCall)
    (toolNames : List String) (content : String) : List ToolCall :=
  tagScan parseTag content ++
  (toolNames.flatMap fun n =>
    (nlAllMatches n content).map fun q => ToolCall.mk n [("query", q)]) ++
  (toolNames.flatMap fun n =>
    (slashAllMatches n content).map fun q => ToolCall.mk n [("query", q)])

/-- Follows the claim's words (C2): all structured-tag candidates, then all
natural-language candidates across the tools in registration order, then all
slash candidates across the tools in registration order. -/
def detectFormBlockedSpec (parseTag : String → Option ToolCall)
    (toolNames : List String) (content : String) : List ToolCall :=
  tagScan parseTag content ++
  (toolNames.flatMap fun n =>
    (nlFirstMatch n content).toList.map fun q => ToolCall.mk n [("query", q)]) ++
  (toolNames.flatMap fun n =>
    (slashFirstMatch n content).toList.map fun q => ToolCall.mk n [("query", q)])

/-- Helper: the per-tool fold of `detectToolRequests` decomposes into the tag
candidates followed by each tool's contribution in registration order. -/
theorem detectToolRequests_decomp (parseTag : String → Option ToolCall)
    (toolNames : List String) (content : String) :
    detectToolRequests parseTag toolNames content =
      tagScan parseTag content ++
        toolNames.flatMap fun n => toolFormCalls n content := by
  unfold detectToolRequests
  generalize tagScan parseTag content = init
  induction toolNames generalizing init with
  | nil => simp
  | cons n rest ih =>
    have hstep : ∀ acc : List ToolCall,
        (match slashFirstMatch n content with
         | some q =>
             (match nlFirstMatch n content with
              | some q' => acc ++ [ToolCall.mk n [("query", q')]]
              | none => acc) ++ [ToolCall.mk n [("query", q)]]
         | none =>
             match nlFirstMatch n content with
             | some q' => acc ++ [ToolCall.mk n [("query", q')]]
             | none => acc) = acc ++ toolFormCalls n content := by
      intro acc
      unfold toolFormCalls
      cases nlFirstMatch n content <;> cases slashFirstMatch n content <;> simp
    simp only [List.foldl_cons, List.flatMap_cons]
    rw [ih]
    rw [hstep init, List.append_assoc]

/-- Helper: the head of the global scan is exactly the single `exec`'s match. -/
theorem execAll_take_one (pat : List Char) (f : Nat) (s : List Char) :
    (execAllAux pat (f + 1) s).take 1 =
      ((execPatFull pat s).map fun p => String.mk (jsTrim p.1)).toList := by
  unfold execAllAux
  cases h : execPatFull pat s with
  | none => simp
  | some p => simp

/-- C1 (amended): `detectToolRequests` yields one candidate per structured-tag
span, in order of appearance; but for the natural-language and slash-command
forms only the first match per tool and form is collected — later occurrences
are dropped. -/
theorem detectToolRequests_first_match_only (parseTag : String → Option ToolCall)
    (toolNames : List String) (content : String) :
    detectToolRequests parseTag toolNames content =
      tagScan parseTag content ++
        toolNames.flatMap fun n =>
          ((nlAllMatches n content).take 1).map
              (fun q => ToolCall.mk n [("query", q)]) ++
          ((slashAllMatches n content).take 1).map
              (fun q => ToolCall.mk n [("query", q)]) := by
  rw [detectToolRequests_decomp]
  congr 1
  apply List.flatMap_congr  -- pointwise equality of the per-tool contributions
  intro n _
  unfold toolFormCalls nlAllMatches slashAllMatches
  rw [execAll_take_one, execAll_take_one]
  unfold nlFirstMatch slashFirstMatch
  cases execPatFull (nlPat n) content.data <;>
    cases execPatFull (slashPat n) content.data <;> simp

/-- Counterexample to C1 as stated: with `plan_task` registered, a text
containing two natural-language invocations yields a single candidate (the
first match), not one per occurrence. -/
theorem detectToolRequests_not_per_occurrence :
    (detectAllOccurrencesSpec (fun _ => none) ["plan_task"]
        "use plan_task tool with a. use plan_task tool with b.").length = 2 ∧
    detectToolRequests (fun _ => none) ["plan_task"]
        "use plan_task tool with a. use plan_task tool with b." =
      [ToolCall.mk "plan_task" [("query", "a")]] := by
  constructor
  · decide
  · decide

/-- C2 (amended): the candidate order is all structured-tag matches first, in
order of appearance, and then — in a single pass over the tools in
registration order — each tool's natural-language match (if any) immediately
followed by that same tool's slash match (if any); the two non-tag forms are
interleaved per tool, not emitted as two separate form-blocks. -/
theorem detectToolRequests_order_interleaved (parseTag : String → Option ToolCall)
    (toolNames : List String) (content : String) :
    detectToolRequests parseTag toolNames content =
      tagScan parseTag content ++
        toolNames.flatMap fun n =>
          ((nlFirstMatch n content).toList.map
              fun q => ToolCall.mk n [("query", q)]) ++
          ((slashFirstMatch n content).toList.map
              fun q => ToolCall.mk n [("query", q)]) :=
  detectToolRequests_decomp parseTag toolNames content

/-- Counterexample to C2 as stated: with tools `alpha`, `beta` registered in
that order and a text holding a slash invocation of `alpha` and a
natural-language invocation of `beta`, the source emits `alpha`'s slash
candidate before `beta`'s natural-language candidate, while the claimed
ordering puts every natural-language candidate first. -/
theorem detectToolRequests_not_form_blocked :
    detectToolRequests (fun _ => none) ["alpha", "beta"]
        "/alpha x. use beta tool with y." =
      [ToolCall.mk "alpha" [("query", "x")], ToolCall.mk "beta" [("query", "y")]] ∧
    detectFormBlockedSpec (fun _ => none) ["alpha", "beta"]
        "/alpha x. use beta tool with y." =
      [ToolCall.mk "beta" [("query", "y")], ToolCall.mk "alpha" [("query", "x")]] ∧
    detectToolRequests (fun _ => none) ["alpha", "beta"]
        "/alpha x. use beta tool with y." ≠
      detectFormBlockedSpec (fun _ => none) ["alpha", "beta"]
        "/alpha x. use beta tool with y." := by
  refine ⟨by decide, by decide, by decide⟩

/-! ### Conversation driver: `chatCompletion` (lines 273–329)

`chatCompletion` detects tool requests in the last message's content, runs
the tool chain, appends one synthetic system message built on a freshly
constructed array (`messages = [...messages, {...}]`, lines 292–298), posts
the (possibly extended) history to the backend, and strips `<think>` spans
from the reply.  The HTTP call is an oracle
`backend : List ChatMessage → String`.  On an empty history the source
throws a `TypeError` before touching the list (line 285 indexes
`messages[-1]`); the embedding returns the history unchanged in that case,
which the claims (about nonempty histories) never exercise. -/

/-- Message roles (lines 4–7). -/
inductive Role where
  | system
  | user
  | assistant
deriving DecidableEq

/-- A chat message (lines 4–7). -/
structure ChatMessage where
  role : Role
  content : String
deriving DecidableEq

/-- The pre-backend phase of `chatCompletion` (lines 284–299): detection on
the last message only, tool-chain processing, and the conditional append of
the single `Tool results:` system message onto a fresh copy of the history. -/
def chatCompletionPrepare (parseTag : String → Option ToolCall)
    (tools : List Tool) (messages : List ChatMessage) : List ChatMessage :=
  match messages.getLast? with
  | none => messages
  | some lastMessage =>
    let toolCalls := detectToolRequests parseTag (toolsKeys tools) lastMessage.content
    if toolCalls.length > 0 then
      messages ++
        [⟨Role.system,
          "Tool results: " ++ joinSep "\n" (processToolChain tools toolCalls)⟩]
    else messages

/-- `content.replace(/<think>.*?<\/think>/gs, "")` (line 320): drop every
leftmost span from `<think>` to the first following `</think>`, fuelled
(each removal consumes at least the 15 marker characters). -/
def stripThinkSpansAux : Nat → List Char → List Char
  | 0, s => s
  | fuel + 1, s =>
    match findSub "<think>".data s with
    | none => s
    | some i =>
      let rest := s.drop (i + 7)
      match findSub "</think>".data rest with
      | none => s
      | some k => s.take i ++ stripThinkSpansAux fuel (rest.drop (k + 8))

/-- `content.replace(/<\/?think>/g, "")` (line 321): drop every remaining
`<think>` or `</think>` marker. -/
def stripThinkMarkersAux : Nat → List Char → List Char
  | 0, s => s
  | fuel + 1, s =>
    match s with
    | [] => []
    | c :: t =>
      if litStarts "<think>".data (c :: t) then
        stripThinkMarkersAux fuel ((c :: t).drop 7)
      else if litStarts "</think>".data (c :: t) then
        stripThinkMarkersAux fuel ((c :: t).drop 8)
      else c :: stripThinkMarkersAux fuel t

/-- The response clean-up of `chatCompletion` (lines 319–322): remove matched
`<think>` spans, then stray markers, then trim. -/
def cleanResponse (content : String) : String :=
  let afterSpans := stripThinkSpansAux content.data.length content.data
  String.mk (jsTrim (stripThinkMarkersAux afterSpans.length afterSpans))

/-- `chatCompletion` (lines 273–329) with the HTTP call as an oracle. -/
def chatCompletion (backend : List ChatMessage → String)
    (parseTag : String → Option ToolCall) (tools : List Tool)
    (messages : List ChatMessage) : String :=
  cleanResponse (backend (chatCompletionPrepare parseTag tools messages))

/-- Follows the claim's words (C8): the appended message's content is the
newline-joined list of the tool-chain result blocks, with nothing before it. -/
def toolResultsMessageSpec (tools : List Tool) (toolCalls : List ToolCall) :
    ChatMessage :=
  ⟨Role.system, joinSep "\n" (processToolChain tools toolCalls)⟩

/-- C8 (amended): whenever at least one tool call is detected in the last
message, exactly one synthetic system message is appended to the history
before the backend completion call, and its content is the literal prefix
`"Tool results: "` followed by the newline-joined tool-chain result blocks
(the claim omits the prefix). -/
theorem chatCompletionPrepare_appends_results (parseTag : String → Option ToolCall)
    (tools : List Tool) (messages : List ChatMessage) (lastMessage : ChatMessage)
    (hlast : messages.getLast? = some lastMessage)
    (hdetect : detectToolRequests parseTag (toolsKeys tools) lastMessage.content ≠ []) :
    chatCompletionPrepare parseTag tools messages =
      messages ++
        [⟨Role.system,
          "Tool results: " ++ joinSep "\n" (processToolChain tools
            (detectToolRequests parseTag (toolsKeys tools) lastMessage.content))⟩] := by
  have hlen : 0 < (detectToolRequests parseTag (toolsKeys tools)
      lastMessage.content).length := List.length_pos.mpr hdetect
  simp only [chatCompletionPrepare, hlast]
  simp [hlen]

/-- Witness for C8: one user message whose single tag invocation names an
unregistered tool against an empty registry; the prepared history gains
exactly the prefixed system message. -/
theorem chatCompletionPrepare_appends_results_witness :
    ([ChatMessage.mk Role.user "[TOOL]\x7bx\x7d[/TOOL]"].getLast? =
        some (ChatMessage.mk Role.user "[TOOL]\x7bx\x7d[/TOOL]") ∧
      detectToolRequests (fun _ => some (ToolCall.mk "t" [])) (toolsKeys [])
        (ChatMessage.mk Role.user "[TOOL]\x7bx\x7d[/TOOL]").content ≠ []) ∧
    chatCompletionPrepare (fun _ => some (ToolCall.mk "t" [])) []
        [ChatMessage.mk Role.user "[TOOL]\x7bx\x7d[/TOOL]"] =
      [ChatMessage.mk Role.user "[TOOL]\x7bx\x7d[/TOOL]"] ++
        [⟨Role.system,
          "Tool results: " ++ joinSep "\n" (processToolChain []
            (detectToolRequests (fun _ => some (ToolCall.mk "t" [])) (toolsKeys [])
              (ChatMessage.mk Role.user "[TOOL]\x7bx\x7d[/TOOL]").content))⟩] := by
  refine ⟨⟨by decide, by decide⟩, ?_⟩
  exact chatCompletionPrepare_appends_results (fun _ => some (ToolCall.mk "t" []))
    [] [ChatMessage.mk Role.user "[TOOL]\x7bx\x7d[/TOOL]"]
    (ChatMessage.mk Role.user "[TOOL]\x7bx\x7d[/TOOL]") (by decide) (by decide)

/-- Counterexample to C8 as stated: in the witness scenario the appended
message's content is not the bare newline-joined result list — the source
prefixes `"Tool results: "` (line 296). -/
theorem chatCompletionPrepare_content_not_bare_join :
    chatCompletionPrepare (fun _ => some (ToolCall.mk "t" [])) []
        [ChatMessage.mk Role.user "[TOOL]\x7bx\x7d[/TOOL]"] ≠
      [ChatMessage.mk Role.user "[TOOL]\x7bx\x7d[/TOOL]"] ++
        [toolResultsMessageSpec []
          (detectToolRequests (fun _ => some (ToolCall.mk "t" [])) (toolsKeys [])
            "[TOOL]\x7bx\x7d[/TOOL]")] := by
  decide

/-- C10: `chatCompletion` never mutates its caller's message list — the tool
results message (when any) is appended to a freshly constructed copy
(`[...messages, {...}]`, line 292), so the history forwarded to the backend
extends the caller's list, whose own messages are all preserved, in place and
unchanged; the caller's list itself is reused as a value, never altered. -/
theorem chatCompletionPrepare_preserves_history (parseTag : String → Option ToolCall)
    (tools : List Tool) (messages : List ChatMessage) :
    ∃ appended : List ChatMessage,
      chatCompletionPrepare parseTag tools messages = messages ++ appended ∧
      (appended = [] ∨ ∃ c : String, appended = [ChatMessage.mk Role.system c]) := by
  unfold chatCompletionPrepare
  cases hlast : messages.getLast? with
  | none => exact ⟨[], by simp⟩
  | some lastMessage =>
    by_cases h : 0 < (detectToolRequests parseTag (toolsKeys tools)
        lastMessage.content).length
    · refine ⟨[⟨Role.system,
        "Tool results: " ++ joinSep "\n" (processToolChain tools
          (detectToolRequests parseTag (toolsKeys tools) lastMessage.content))⟩],
        ?_, Or.inr ⟨_, rfl⟩⟩
      simp [h]
    · exact ⟨[], by simp [h], Or.inl rfl⟩

/-! ### Prompt composer: `getProtocols` and `getSystemPrompt` (lines 360–518)

`getProtocols(mode)` builds a record of six mode protocols and returns
`protocols[mode]` — which is `undefined` for an unrecognized mode (there is
no fallback inside `getProtocols`).  `getSystemPrompt(mode)` builds six
template strings, each ending in
`Here are your protocols: ${JSON.stringify(this.getProtocols(mode))}` with
the *passed* mode, and returns `systemPrompts[mode] || systemPrompts.general`.
For an unrecognized mode the general template is returned, but its trailing
protocol echo serializes `getProtocols(mode) = undefined`, which the template
interpolation renders as the text `undefined`.  `JSON.stringify` on the
protocol records is modelled structurally below with JavaScript object-key
insertion order and string escaping. -/

/-- A tool as embedded in the `web` protocol's manifest (lines 457–461). -/
structure ProtocolTool where
  name : String
  description : String
  parameters : List ToolParam
deriving DecidableEq

/-- A mode protocol (lines 27–43).  `tools` is present only for `web`. -/
structure Protocols where
  directive : String
  context : String
  rationale : String
  examples : List String
  constraints : List String
  tools : Option (List ProtocolTool) := none
deriving DecidableEq

/-- The manifest projection of line 457: `\x7bname, description, parameters\x7d`. -/
def protocolToolOf (t : Tool) : ProtocolTool :=
  ⟨t.name, t.description, t.parameters⟩

/-- `getProtocols` (lines 361–466): the six-protocol record lookup; an
unrecognized mode yields `undefined`. -/
def getProtocols (tools : List Tool) (mode : String) : Option Protocols :=
  if mode = "general" then some
    ⟨"You are Claire, an AI assistant that helps with a variety of tasks.",
     "You are helpful, friendly, witty, and engaging.",
     "Your responses should be short, to the point, and concise.",
     ["What is the weather like today?",
      "Can you help me with my homework?",
      "Tell me a joke."],
     ["Be polite and respectful.",
      "Avoid sensitive topics.",
      "Do not provide medical or legal advice."],
     none⟩
  else if mode = "writing" then some
    ⟨"You are Claire, a writing assistant.",
     "You help users improve their writing by offering suggestions, edits, and feedback.",
     "Focus on clarity, conciseness, and impact.",
     ["Write a short story about a dog named Charlie.",
      "Rewrite this paragraph to make it more engaging: \"The quick brown fox jumps over the lazy dog.\"",
      "Rewrite this sentence to make it more engaging: \"The quick brown fox jumps over the lazy dog.\""],
     ["Be concise and clear.",
      "Avoid jargon and unnecessary language. Complex and creative language is welcome.",
      "Focus on the main idea."],
     none⟩
  else if mode = "research" then some
    ⟨"You are Claire, a research assistant.",
     "You help users analyze information, find connections, and summarize complex topics.",
     "Provide well-structured, factual responses.",
     ["Summarize the main points of this article.",
      "What are the key findings of this research paper?",
      "Can you help me find sources for my thesis?"],
     ["Be factual and objective.",
      "Avoid personal opinions or biases.",
      "Cite sources when possible."],
     none⟩
  else if mode = "coding" then some
    ⟨"You are Claire, a coding assistant.",
     "You help users write, debug, and understand code.",
     "Provide clear explanations and practical examples.",
     ["Write a Python function to calculate the factorial of a number.",
      "Explain how a for loop works in Python.",
      "Can you help me debug this code?"],
     ["Be clear and concise.",
      "Avoid complex jargon unless necessary.",
      "Provide examples when possible."],
     none⟩
  else if mode = "pdf" then some
    ⟨"You are Claire, a PDF analysis assistant.",
     "You help users understand and extract information from PDF documents.",
     "Provide clear summaries and highlight key points.",
     ["Summarize this PDF document.",
      "What are the key findings in this research paper?",
      "Can you help me extract data from this PDF?"],
     ["Be clear and concise.",
      "Avoid complex jargon unless necessary.",
      "Provide examples when possible."],
     none⟩
  else if mode = "web" then some
    ⟨"You are Claire, a web page analysis assistant.",
     "You help users understand and extract information from web pages.",
     "Provide clear summaries and highlight key points.",
     ["Summarize this web page.",
      "What are the key findings in this research paper?",
      "Can you help me extract data from this web page?"],
     ["Be clear and concise.",
      "Avoid complex jargon unless necessary.",
      "Provide examples when possible."],
     some (tools.map protocolToolOf)⟩
  else none

/-- Lower-case hexadecimal digit, for JSON control-character escapes. -/
def hexDigit (n : Nat) : Char :=
  if n < 10 then Char.ofNat (48 + n) else Char.ofNat (87 + n)

/-- `JSON.stringify` escaping of one character inside a string literal. -/
def jsonEscapeChar (c : Char) : List Char :=
  if c = '"' then ['\\', '"']
  else if c = '\\' then ['\\', '\\']
  else if c = '\x08' then ['\\', 'b']
  else if c = '\x0c' then ['\\', 'f']
  else if c = '\n' then ['\\', 'n']
  else if c = '\r' then ['\\', 'r']
  else if c = '\t' then ['\\', 't']
  else if c.toNat < 32 then
    ['\\', 'u', '0', '0', hexDigit (c.toNat / 16), hexDigit (c.toNat % 16)]
  else [c]

/-- `JSON.stringify` of a string value. -/
def jsonQuote (s : String) : String :=
  String.mk ('"' :: (s.data.flatMap jsonEscapeChar ++ ['"']))

/-- `JSON.stringify` of an array of strings. -/
def jsonArrOfStrings (xs : List String) : String :=
  "[" ++ joinSep "," (xs.map jsonQuote) ++ "]"

/-- `JSON.stringify` of one declared parameter (object-key insertion order
`name`, `type`, `description`, `required`). -/
def jsonOfParam (p : ToolParam) : String :=
  "\x7b" ++ jsonQuote "name" ++ ":" ++ jsonQuote p.name ++
    "," ++ jsonQuote "type" ++ ":" ++ jsonQuote p.type ++
    "," ++ jsonQuote "description" ++ ":" ++ jsonQuote p.description ++
    "," ++ jsonQuote "required" ++ ":" ++ (if p.required then "true" else "false") ++
    "\x7d"

/-- `JSON.stringify` of one manifest tool (insertion order `name`,
`description`, `parameters`). -/
def jsonOfProtocolTool (t : ProtocolTool) : String :=
  "\x7b" ++ jsonQuote "name" ++ ":" ++ jsonQuote t.name ++
    "," ++ jsonQuote "description" ++ ":" ++ jsonQuote t.description ++
    "," ++ jsonQuote "parameters" ++ ":" ++
      "[" ++ joinSep "," (t.parameters.map jsonOfParam) ++ "]" ++
    "\x7d"

/-- `JSON.stringify` of a protocol record (insertion order `directive`,
`context`, `rationale`, `examples`, `constraints`, then `tools` when
present; an absent — `undefined` — `tools` key is omitted, as
`JSON.stringify` does). -/
def jsonOfProtocols (p : Protocols) : String :=
  "\x7b" ++ jsonQuote "directive" ++ ":" ++ jsonQuote p.directive ++
    "," ++ jsonQuote "context" ++ ":" ++ jsonQuote p.context ++
    "," ++ jsonQuote "rationale" ++ ":" ++ jsonQuote p.rationale ++
    "," ++ jsonQuote "examples" ++ ":" ++ jsonArrOfStrings p.examples ++
    "," ++ jsonQuote "constraints" ++ ":" ++ jsonArrOfStrings p.constraints ++
    (match p.tools with
     | none => ""
     | some ts => "," ++ jsonQuote "tools" ++ ":" ++
         "[" ++ joinSep "," (ts.map jsonOfProtocolTool) ++ "]") ++
    "\x7d"

/-- `JSON.stringify(this.getProtocols(mode))` as it appears interpolated into
the template strings: `JSON.stringify(undefined)` is the `undefined` value,
which the template renders as the text `undefined`. -/
def jsonStringifyProtocols : Option Protocols → String
  | none => "undefined"
  | some p => jsonOfProtocols p

/-- The per-tool block of the tool-usage instructions (lines 479–488),
whitespace exactly as in the source template literal. -/
def toolUsageBlock (t : Tool) : String :=
  "\n    - " ++ t.name ++ ": " ++ t.description ++
  "\n      Parameters: " ++
    joinSep ", " (t.parameters.map fun p =>
      p.name ++ " (" ++ p.type ++ (if p.required then ", required" else "") ++ ")") ++
  "\n      Usage formats:" ++
  "\n        * [TOOL]\x7b\"name\": \"" ++ t.name ++ "\", \"parameters\": \x7b...\x7d\x7d[/TOOL]" ++
  "\n        * Use " ++ t.name ++ " tool with [query/parameters]" ++
  "\n        * /" ++ t.name ++ " [query]" ++
  "\n    "

/-- `toolInstructions` (lines 473–494): the tool-usage block, built only when
the registry is non-empty. -/
def toolInstructions (tools : List Tool) : String :=
  if tools.length > 0 then
    "\n    Available tools:\n    " ++
      joinSep "\n" (tools.map toolUsageBlock) ++
      "\n    \n    You can use these tools naturally in conversation. Just mention what you want to do and I\x27ll use the appropriate tool.\n    "
  else ""

/-- Template prefix of the `general` system prompt (line 497). -/
def generalPromptPre : String :=
  "You are Claire, an AI assistant that helps with a variety of tasks. You are helpful, friendly, witty, and engaging. Your responses should be short, to the point, and concise. "

/-- Template prefix of the `writing` system prompt (line 500). -/
def writingPromptPre : String :=
  "You are Claire, a writing assistant. You help users improve their writing by offering suggestions, edits, and feedback. Focus on clarity, conciseness, and impact. "

/-- Template prefix of the `research` system prompt (line 503). -/
def researchPromptPre : String :=
  "You are Claire, a research assistant. You help users analyze information, find connections, and summarize complex topics. Provide well-structured, factual responses. "

/-- Template prefix of the `coding` system prompt (line 506). -/
def codingPromptPre : String :=
  "You are Claire, a coding assistant. You help users write, debug, and understand code. Provide clear explanations and practical examples. "

/-- Template prefix of the `pdf` system prompt (line 509). -/
def pdfPromptPre : String :=
  "You are Claire, a PDF analysis assistant. You help users understand and extract information from PDF documents. Provide clear summaries and highlight key points. "

/-- Template prefix of the `web` system prompt (line 512). -/
def webPromptPre : String :=
  "You are Claire, a web page analysis assistant. You help users understand and extract information from web pages. Provide clear summaries and highlight key points. "

/-- One entry of the `systemPrompts` record: prefix, tool instructions, and
the protocol echo — the echo always serializing the protocol of the *passed*
mode, as every template in lines 496–515 does. -/
def systemPromptEntry (pre : String) (tools : List Tool) (mode : String) : String :=
  pre ++ toolInstructions tools ++ " Here are your protocols: " ++
    jsonStringifyProtocols (getProtocols tools mode)

/-- `getSystemPrompt` (lines 469–518): `systemPrompts[mode] ||
systemPrompts.general`. -/
def getSystemPrompt (tools : List Tool) (mode : String) : String :=
  if mode = "general" then systemPromptEntry generalPromptPre tools mode
  else if mode = "writing" then systemPromptEntry writingPromptPre tools mode
  else if mode = "research" then systemPromptEntry researchPromptPre tools mode
  else if mode = "coding" then systemPromptEntry codingPromptPre tools mode
  else if mode = "pdf" then systemPromptEntry pdfPromptPre tools mode
  else if mode = "web" then systemPromptEntry webPromptPre tools mode
  else systemPromptEntry generalPromptPre tools mode

/-- C3 (amended): for every unrecognized mode, `getSystemPrompt` returns the
general template — identical across all unrecognized modes — but its protocol
echo is the text `undefined` (the serialization of the missing protocol of
the passed mode), so the output is not byte-identical to the `"general"`
mode's output, which echoes the general protocol record. -/
theorem getSystemPrompt_unknown_mode (tools : List Tool) (mode : String)
    (h : mode ∉ (["general", "writing", "research", "coding", "pdf", "web"] :
      List String)) :
    getSystemPrompt tools mode =
      generalPromptPre ++ toolInstructions tools ++
        " Here are your protocols: undefined" := by
  simp only [List.mem_cons, List.not_mem_nil, or_false, not_or] at h
  obtain ⟨h1, h2, h3, h4, h5, h6⟩ := h
  simp only [getSystemPrompt, systemPromptEntry, getProtocols, jsonStringifyProtocols,
    h1, h2, h3, h4, h5, h6, if_neg, if_false]
  rw [String.append_assoc]
  congr 1

/-- Witness for C3's amended theorem at the unrecognized mode `"foo"` and an
(emptied) registry. -/
theorem getSystemPrompt_unknown_mode_witness :
    ("foo" ∉ (["general", "writing", "research", "coding", "pdf", "web"] :
      List String)) ∧
    getSystemPrompt [] "foo" =
      generalPromptPre ++ toolInstructions [] ++
        " Here are your protocols: undefined" :=
  ⟨by decide, getSystemPrompt_unknown_mode [] "foo" (by decide)⟩

set_option maxRecDepth 16384 in
/-- Counterexample to C3 as stated: the output for the unrecognized mode
`"foo"` is not byte-identical to the output for `"general"` — the two
protocol echoes differ. -/
theorem getSystemPrompt_unknown_ne_general :
    getSystemPrompt [] "foo" ≠ getSystemPrompt [] "general" := by
  decide

end Claire
